import Mathlib

/-!
Verification of the Position-Observer core (the `PositionObserver` class of
`src/version-2/position-observer.ts`, plus the `two-io-differing-ir` variant)
against its natural-language specification.

The TypeScript class is shallowly embedded: DOM rectangles become records of
rationals, the `IntersectionObserver` subscriptions and the pending
`requestAnimationFrame` callbacks become explicit lists inside an observer
state record, and each method/callback of the class becomes a pure function
from that state (plus the notification entry or the freshly queried target
rectangle) to a new state together with the list of reporting-callback
invocations it performs.
-/

namespace PositionObserver

/-- A DOM rectangle as used by the source (`DOMRect`): stored as
left/top/width/height, with `right`/`bottom` the usual derived fields.
Coordinates are rationals. -/
structure Rect where
  left : ℚ
  top : ℚ
  width : ℚ
  height : ℚ
deriving DecidableEq, Repr

def Rect.right (r : Rect) : ℚ := r.left + r.width

def Rect.bottom (r : Rect) : ℚ := r.top + r.height

/-- A plain left/top/right/bottom box, the return shape of
`constructBoxWindow` in the source. -/
structure Box where
  left : ℚ
  top : ℚ
  right : ℚ
  bottom : ℚ
deriving DecidableEq, Repr

/-- Models `constructBoxWindow(targetBounds, rootBounds)` from
`src/version-2/position-observer.ts`: clamps a window of the target's size
into the root bounds. -/
def constructBoxWindow (targetBounds rootBounds : Rect) : Box :=
  let constrainedLeft :=
    min (max rootBounds.left targetBounds.left) (rootBounds.right - targetBounds.width)
  let constrainedTop :=
    min (max rootBounds.top targetBounds.top) (rootBounds.bottom - targetBounds.height)
  { left := constrainedLeft
    top := constrainedTop
    right := constrainedLeft + targetBounds.width
    bottom := constrainedTop + targetBounds.height }

/-- The four root margins computed by `getMargins` (the source renders them
as a `"top right bottom left"` pixel string; we keep the four numbers). -/
structure Margins where
  top : ℚ
  right : ℚ
  bottom : ℚ
  left : ℚ
deriving DecidableEq, Repr

/-- The ambient `visualViewport` global read by `getMargins` when the entry
carries no root bounds. -/
structure VisualViewport where
  offsetTop : ℚ
  offsetLeft : ℚ
  width : ℚ
  height : ℚ
deriving DecidableEq, Repr

def Rect.toBox (r : Rect) : Box :=
  { left := r.left, top := r.top, right := r.right, bottom := r.bottom }

/-- The `viewportBounds` local of `getMargins`: the root bounds when present,
otherwise the visual-viewport fallback rectangle. -/
def resolveViewportBounds (rootBounds : Option Rect) (vv : VisualViewport) : Box :=
  match rootBounds with
  | none =>
      { top := vv.offsetTop
        left := vv.offsetLeft
        right := vv.width + vv.offsetLeft
        bottom := vv.height + vv.offsetTop }
  | some r => r.toBox

/-- Models `getMargins(windowDimensions, rootBounds)` from
`src/version-2/position-observer.ts` (the ambient `visualViewport` global is
passed explicitly). -/
def getMargins (windowDimensions : Box) (rootBounds : Option Rect)
    (vv : VisualViewport) : Margins :=
  let viewportBounds := resolveViewportBounds rootBounds vv
  { top := min (-(windowDimensions.top - 1 - viewportBounds.top)) 0
    right := min (-(viewportBounds.right - (windowDimensions.right + 1))) 0
    bottom := min (-(viewportBounds.bottom - (windowDimensions.bottom + 1))) 0
    left := min (-(windowDimensions.left - 1 - viewportBounds.left)) 0 }

/-- C4: for every pair of target and outer rectangles the fitted window
computed by `constructBoxWindow` has exactly the target's width and height,
and whenever the target's width and height are no larger than the outer
rectangle's, the fitted window lies entirely within the outer rectangle
component-wise. -/
theorem claim_C4_constructBoxWindow_fits (t o : Rect) :
    ((constructBoxWindow t o).right - (constructBoxWindow t o).left = t.width ∧
      (constructBoxWindow t o).bottom - (constructBoxWindow t o).top = t.height) ∧
    (t.width ≤ o.width → t.height ≤ o.height →
      o.left ≤ (constructBoxWindow t o).left ∧
      o.top ≤ (constructBoxWindow t o).top ∧
      (constructBoxWindow t o).right ≤ o.right ∧
      (constructBoxWindow t o).bottom ≤ o.bottom) := by
  simp only [constructBoxWindow, Rect.right, Rect.bottom]
  refine ⟨⟨by ring, by ring⟩, ?_⟩
  intro hw hh
  refine ⟨?_, ?_, ?_, ?_⟩
  · exact le_min (le_max_left _ _) (by linarith)
  · exact le_min (le_max_left _ _) (by linarith)
  · have h := min_le_right (max o.left t.left) (o.left + o.width - t.width)
    linarith
  · have h := min_le_right (max o.top t.top) (o.top + o.height - t.height)
    linarith

/-- Concrete instantiation of `claim_C4_constructBoxWindow_fits`, discharging
its fits-within-outer hypotheses on a sample rectangle pair. -/
theorem claim_C4_constructBoxWindow_fits_witness :
    ((constructBoxWindow ⟨12, -3, 2, 5⟩ ⟨0, 0, 10, 10⟩).right -
        (constructBoxWindow ⟨12, -3, 2, 5⟩ ⟨0, 0, 10, 10⟩).left = 2 ∧
      (constructBoxWindow ⟨12, -3, 2, 5⟩ ⟨0, 0, 10, 10⟩).bottom -
        (constructBoxWindow ⟨12, -3, 2, 5⟩ ⟨0, 0, 10, 10⟩).top = 5) ∧
    ((0 : ℚ) ≤ (constructBoxWindow ⟨12, -3, 2, 5⟩ ⟨0, 0, 10, 10⟩).left ∧
      (0 : ℚ) ≤ (constructBoxWindow ⟨12, -3, 2, 5⟩ ⟨0, 0, 10, 10⟩).top ∧
      (constructBoxWindow ⟨12, -3, 2, 5⟩ ⟨0, 0, 10, 10⟩).right ≤ Rect.right ⟨0, 0, 10, 10⟩ ∧
      (constructBoxWindow ⟨12, -3, 2, 5⟩ ⟨0, 0, 10, 10⟩).bottom ≤ Rect.bottom ⟨0, 0, 10, 10⟩) :=
  ⟨(claim_C4_constructBoxWindow_fits ⟨12, -3, 2, 5⟩ ⟨0, 0, 10, 10⟩).1,
    (claim_C4_constructBoxWindow_fits ⟨12, -3, 2, 5⟩ ⟨0, 0, 10, 10⟩).2
      (by norm_num) (by norm_num)⟩

/-- C5: each of the four margins computed by `getMargins` equals the minimum
of 0 and the negated signed gap between the fitted window's edge and the
outer rectangle's edge biased by one unit, and consequently every computed
margin is nonpositive. -/
theorem claim_C5_getMargins_form_and_nonpositive
    (w : Box) (rootBounds : Option Rect) (vv : VisualViewport) :
    ((getMargins w rootBounds vv).top =
        min 0 (-((w.top - (resolveViewportBounds rootBounds vv).top) - 1)) ∧
      (getMargins w rootBounds vv).right =
        min 0 (-(((resolveViewportBounds rootBounds vv).right - w.right) - 1)) ∧
      (getMargins w rootBounds vv).bottom =
        min 0 (-(((resolveViewportBounds rootBounds vv).bottom - w.bottom) - 1)) ∧
      (getMargins w rootBounds vv).left =
        min 0 (-((w.left - (resolveViewportBounds rootBounds vv).left) - 1))) ∧
    ((getMargins w rootBounds vv).top ≤ 0 ∧
      (getMargins w rootBounds vv).right ≤ 0 ∧
      (getMargins w rootBounds vv).bottom ≤ 0 ∧
      (getMargins w rootBounds vv).left ≤ 0) := by
  simp only [getMargins]
  refine ⟨⟨?_, ?_, ?_, ?_⟩, min_le_right _ _, min_le_right _ _, min_le_right _ _,
    min_le_right _ _⟩
  · rw [min_comm]; ring_nf
  · rw [min_comm]; ring_nf
  · rw [min_comm]; ring_nf
  · rw [min_comm]; ring_nf

/-- The record portion of `previousPositionInfo` (the cached position
sample): `{ top, left, width, height }`. -/
structure PosInfo where
  top : ℚ
  left : ℚ
  width : ℚ
  height : ℚ
deriving DecidableEq, Repr

def Rect.toPosInfo (r : Rect) : PosInfo :=
  { top := r.top, left := r.left, width := r.width, height := r.height }

/-- Which callback an `IntersectionObserver` instance was constructed with:
`viewportWindowDetectionCallback` (the coarse, full-viewport watcher) or
`finerWindowCallback` (the fitted-window watcher). -/
inductive IOCb
  | coarse
  | fine
deriving DecidableEq, Repr

/-- One live `IntersectionObserver` created by the class: its identity, the
callback it dispatches to, whether `.observe(target)` is in effect, and the
root margins it was constructed with (`⟨0,0,0,0⟩` models the literal
`"0px 0px 0px 0px"` of the coarse watcher). -/
structure IOSub where
  id : ℕ
  cb : IOCb
  observing : Bool
  rootMargins : Margins
deriving DecidableEq, Repr

/-- An `IntersectionObserverEntry` as consumed by the callbacks: only the
fields the source reads. -/
structure Entry where
  intersectionRatio : ℚ
  boundingClientRect : Rect
  rootBounds : Option Rect
  intersectionRect : Rect
deriving DecidableEq, Repr

/-- One invocation of the reporting callback (`positionObserverCallback`);
the `target` argument is the single tracked element and is left implicit. -/
structure Report where
  x : ℚ
  y : ℚ
  outOfViewport : Bool
  rootBounds : Option Rect
deriving DecidableEq, Repr

/-- A callback scheduled through `requestAnimationFrame` and still pending:
`repeatedCheck`, `stopConfirmationCheck`, or the anonymous closure that
`finerWindowCallback` wraps its body in (capturing the entry). -/
inductive RafCb
  | repeated
  | stopConfirm
  | finerBody (entry : Entry)
deriving DecidableEq, Repr

/-- The whole observable state of one `PositionObserver` instance together
with its host registrations: `subs` holds every `IntersectionObserver` that
has been created and not yet disconnected, `current` is the id the
`this.intersectionObserver` field references, `pendingRafs` the queued
animation-frame callbacks with their ids, and the remaining fields are the
class's own fields. -/
structure ObsState where
  subs : List IOSub
  current : Option ℕ
  pendingRafs : List (ℕ × RafCb)
  nextIoId : ℕ
  nextRafId : ℕ
  positionRAF : Option ℕ
  previousPositionInfo : Option PosInfo
  hasTarget : Bool
  timeToWaitTillStopConfirmed : ℕ
  waitTime : ℚ
  stopWaitTime : ℚ
  stopped : Bool
deriving DecidableEq, Repr

/-- The state of a freshly constructed observer (fields `waitTime = 0`,
`stopWaitTime = 1000`, nothing subscribed, no target). Browser
animation-frame handles are nonzero, hence `nextRafId = 1`. -/
def initState : ObsState :=
  { subs := []
    current := none
    pendingRafs := []
    nextIoId := 0
    nextRafId := 1
    positionRAF := none
    previousPositionInfo := none
    hasTarget := false
    timeToWaitTillStopConfirmed := 0
    waitTime := 0
    stopWaitTime := 1000
    stopped := false }

/-- Look up a subscription by id among the non-disconnected observers. -/
def findSub : List IOSub → ℕ → Option IOSub
  | [], _ => none
  | sub :: rest, i => if sub.id = i then some sub else findSub rest i

def lookupSub (s : ObsState) (i : ℕ) : Option IOSub := findSub s.subs i

/-- The callback kind of the observer `this.intersectionObserver` currently
references, when that observer is still live. -/
def currentKind (s : ObsState) : Option IOCb :=
  match s.current with
  | none => none
  | some i => (lookupSub s i).map (·.cb)

/-- Models `this.intersectionObserver?.unobserve(target)`: stop observing on the
referenced observer (no-op when the field is unset or the observer gone). -/
def unobserveCurrent (s : ObsState) : ObsState :=
  match s.current with
  | none => s
  | some i =>
      { s with subs := s.subs.map fun sub =>
          if sub.id = i then { sub with observing := false } else sub }

/-- Models `this.intersectionObserver?.disconnect()`: remove the referenced
observer from the live set (the field keeps its stale reference). -/
def disconnectCurrent (s : ObsState) : ObsState :=
  match s.current with
  | none => s
  | some i => { s with subs := s.subs.filter fun sub => sub.id ≠ i }

/-- Models `requestAnimationFrame(cb)`: queue `cb`, returning the fresh handle. -/
def scheduleRaf (s : ObsState) (cb : RafCb) : ObsState × ℕ :=
  ({ s with pendingRafs := s.pendingRafs ++ [(s.nextRafId, cb)],
            nextRafId := s.nextRafId + 1 }, s.nextRafId)

/-- Models `cancelAnimationFrame(i)`: drop the pending callback with handle `i`. -/
def cancelRaf (s : ObsState) (i : ℕ) : ObsState :=
  { s with pendingRafs := s.pendingRafs.filter fun t => t.1 ≠ i }

/-- The guarded cancellation idiom
`if (this.positionRAF) cancelAnimationFrame(this.positionRAF)`. -/
def cancelStoredRaf (s : ObsState) : ObsState :=
  match s.positionRAF with
  | none => s
  | some i => cancelRaf s i

/-- Models `Math.ceil(w / 16)` on the nonnegative wait times the class stores, as a
frame count. -/
def msToFrames (w : ℚ) : ℕ := (⌈w / 16⌉).toNat

/-- Models `hasPositionChanged(currentRect)`: true when no sample is cached, else
componentwise inequality against the cached sample. -/
def hasPositionChanged : Option PosInfo → Rect → Bool
  | none, _ => true
  | some p, r =>
      (p.left != r.left) || (p.top != r.top) ||
        (p.width != r.width) || (p.height != r.height)

/-- Models `updatePosition(currentRect)`: cache the current rectangle. -/
def updatePosition (s : ObsState) (currentRect : Rect) : ObsState :=
  { s with previousPositionInfo := some currentRect.toPosInfo }

/-- The TypeScript non-null assertion `entry.rootBounds as DOMRect` (the
coarse watcher's root is the document, so its entries always carry root
bounds; `none` never reaches this cast in a run of the source). -/
def asDOMRect (o : Option Rect) : Rect := o.getD ⟨0, 0, 0, 0⟩

/-- Models `observe(targetElement)`: construct a fresh coarse
`IntersectionObserver` (threshold list, zero root margin, document root),
observe the target on it, repoint `this.intersectionObserver`, and bind the
target. The previous observer, if any, is not touched. -/
def observe (s : ObsState) : ObsState :=
  { s with
      subs := s.subs ++ [{ id := s.nextIoId, cb := .coarse, observing := true,
                           rootMargins := ⟨0, 0, 0, 0⟩ }],
      current := some s.nextIoId,
      nextIoId := s.nextIoId + 1,
      hasTarget := true }

/-- Models `disconnect()`: exactly `this.intersectionObserver?.disconnect()`. -/
def disconnect (s : ObsState) : ObsState := disconnectCurrent s

/-- Models `viewportWindowDetectionCallback(e)`: inspects `e[0]`; on a positive
intersection ratio it swaps the coarse observer for a finer one whose root
margins project the fitted window, otherwise it reports the target as out of
the viewport. An empty batch is never delivered by the host. -/
def viewportWindowDetectionCallback (vv : VisualViewport) (s : ObsState) :
    List Entry → ObsState × List Report
  | [] => (s, [])
  | entry :: _ =>
      let targetBounds := entry.boundingClientRect
      if 0 < entry.intersectionRatio then
        let s₁ := disconnectCurrent (unobserveCurrent s)
        let m := getMargins
          (constructBoxWindow entry.intersectionRect (asDOMRect entry.rootBounds))
          entry.rootBounds vv
        ({ s₁ with
            subs := s₁.subs ++ [{ id := s₁.nextIoId, cb := .fine, observing := true,
                                  rootMargins := m }],
            current := some s₁.nextIoId,
            nextIoId := s₁.nextIoId + 1 }, [])
      else
        (s, [{ x := targetBounds.left, y := targetBounds.top,
               outOfViewport := true, rootBounds := entry.rootBounds }])

/-- Models `repeatedCheck()`: one tick of the motion-polling loop, given the
rectangle `targetRect` the geometry query returns at this tick. -/
def repeatedCheck (s : ObsState) (targetRect : Rect) : ObsState × List Report :=
  if s.hasTarget then
    if hasPositionChanged s.previousPositionInfo targetRect then
      let s₁ := updatePosition s targetRect
      let rep : Report := { x := targetRect.left, y := targetRect.top,
                            outOfViewport := false, rootBounds := some targetRect }
      let s₂ := { s₁ with timeToWaitTillStopConfirmed := msToFrames s₁.waitTime }
      let (s₃, i) := scheduleRaf s₂ .repeated
      ({ s₃ with positionRAF := some i }, [rep])
    else if s.timeToWaitTillStopConfirmed ≠ 0 then
      let (s₁, i) := scheduleRaf
        { s with timeToWaitTillStopConfirmed := s.timeToWaitTillStopConfirmed - 1 }
        .repeated
      ({ s₁ with positionRAF := some i }, [])
    else
      (observe (cancelStoredRaf s), [])
  else
    (cancelStoredRaf s, [])

/-- Models `stopConfirmationCheck()`: the second polling loop, identical in shape
to `repeatedCheck` but counting down from `stopWaitTime` and flagging
`stopped` when the countdown elapses. -/
def stopConfirmationCheck (s : ObsState) (targetRect : Rect) : ObsState × List Report :=
  if s.hasTarget then
    if hasPositionChanged s.previousPositionInfo targetRect then
      let s₁ := updatePosition s targetRect
      let rep : Report := { x := targetRect.left, y := targetRect.top,
                            outOfViewport := false, rootBounds := some targetRect }
      let s₂ := { s₁ with timeToWaitTillStopConfirmed := msToFrames s₁.stopWaitTime }
      let (s₃, i) := scheduleRaf s₂ .stopConfirm
      ({ s₃ with positionRAF := some i }, [rep])
    else if s.timeToWaitTillStopConfirmed ≠ 0 then
      let (s₁, i) := scheduleRaf
        { s with timeToWaitTillStopConfirmed := s.timeToWaitTillStopConfirmed - 1 }
        .stopConfirm
      ({ s₁ with positionRAF := some i }, [])
    else
      let s₁ :=
        match s.positionRAF with
        | some i => cancelRaf { s with stopped := true } i
        | none => s
      (observe s₁, [])
  else
    (cancelStoredRaf s, [])

/-- The body of the closure `finerWindowCallback` passes to
`requestAnimationFrame`, run when that frame callback fires. -/
def finerWindowBody (s : ObsState) (entry : Entry) : ObsState × List Report :=
  let targetBounds := entry.boundingClientRect
  let (s₁, reps) :=
    if hasPositionChanged s.previousPositionInfo entry.boundingClientRect then
      let sA := updatePosition { s with stopped := false } entry.boundingClientRect
      let rep : Report := { x := targetBounds.left, y := targetBounds.top,
                            outOfViewport := false, rootBounds := entry.rootBounds }
      if 0 < entry.intersectionRatio ∧ entry.intersectionRatio < 1 then
        let sB := disconnectCurrent (unobserveCurrent sA)
        let sC := { sB with timeToWaitTillStopConfirmed := msToFrames sB.waitTime,
                            stopped := false }
        let (sD, i) := scheduleRaf sC .repeated
        ({ sD with positionRAF := some i }, [rep])
      else (sA, [rep])
    else (s, [])
  let s₂ :=
    if entry.intersectionRatio = 0 then
      observe (disconnectCurrent (unobserveCurrent s₁))
    else s₁
  let s₃ :=
    if entry.intersectionRatio = 1 then
      if s₂.stopped then s₂
      else
        let sC := { s₂ with timeToWaitTillStopConfirmed := msToFrames s₂.stopWaitTime }
        let (sD, i) := scheduleRaf sC .stopConfirm
        { sD with positionRAF := some i }
    else s₂
  (s₃, reps)

/-- Models `finerWindowCallback(e)`: inspects `e[0]` and defers its whole body to
the next animation frame (the handle of that anonymous frame callback is not
stored in `positionRAF`). -/
def finerWindowCallback (s : ObsState) : List Entry → ObsState × List Report
  | [] => (s, [])
  | entry :: _ => ((scheduleRaf s (.finerBody entry)).1, [])

/-- The host firing the pending animation-frame callback with handle `i`:
the handle is consumed, then the callback runs (`targetRect` is what
`getBoundingClientRect()` returns during that frame). -/
def fireRafTask (s : ObsState) (i : ℕ) (targetRect : Rect) : ObsState × List Report :=
  match s.pendingRafs.find? (fun t => t.1 = i) with
  | none => (s, [])
  | some (_, cb) =>
      let s₁ := cancelRaf s i
      match cb with
      | .repeated => repeatedCheck s₁ targetRect
      | .stopConfirm => stopConfirmationCheck s₁ targetRect
      | .finerBody entry => finerWindowBody s₁ entry

/-- The number of `IntersectionObserver` subscriptions currently observing
the target. -/
def liveWatcherCount (s : ObsState) : ℕ :=
  (s.subs.filter (·.observing)).length

/-- Whether a pending animation-frame callback belongs to one of the two
polling loops. -/
def isPollerTask : RafCb → Bool
  | .repeated => true
  | .stopConfirm => true
  | .finerBody _ => false

/-- The number of pending polling-loop frame callbacks. -/
def pendingPollerCount (s : ObsState) : ℕ :=
  (s.pendingRafs.filter fun t => isPollerTask t.2).length

/-- The number of detection mechanisms currently live: watcher subscriptions
plus pending polling-loop ticks. -/
def mechCount (s : ObsState) : ℕ := liveWatcherCount s + pendingPollerCount s

end PositionObserver

namespace TwoIo

open PositionObserver (Rect Margins Box asDOMRect Rect.toBox)

/-- The callbacks of the `two-io-differing-ir` variant: the inline backup
observer callback created in `observe`, `viewportWindowDetectionCallback`,
and `finerWindowDetectionCallback`. -/
inductive Cb2
  | backup
  | viewport
  | finer
deriving DecidableEq, Repr

/-- A live `IntersectionObserver` of the `two-io-differing-ir` variant. -/
structure IOSub2 where
  id : ℕ
  cb : Cb2
  observing : Bool
deriving DecidableEq, Repr

/-- A notification entry for the two-observer variant (only the fields its
callbacks read). -/
structure Entry2 where
  intersectionRatio : ℚ
  rootBounds : Option Rect
  intersectionRect : Rect
deriving DecidableEq, Repr

/-- One `movement-observed` event dispatched by `reportPosition`. -/
structure Report2 where
  rootBounds : Option Rect
  outOfViewport : Bool
deriving DecidableEq, Repr

/-- The state of one `two-io-differing-ir` `PositionObserver` instance:
`backup` is the `backupViewportIntersectionObserver` field, `current` the
`intersectionObserver` field. -/
structure St2 where
  subs : List IOSub2
  backup : Option ℕ
  current : Option ℕ
  nextIoId : ℕ
  viewportIR : Option ℚ
  viewportVisible : Option Bool
  hasTarget : Bool
deriving DecidableEq, Repr

/-- Models `getMargins(windowDimensions, rootBounds)` of the two-observer variant
(no viewport fallback: `rootBounds` is a plain `DOMRect` there). -/
def getMargins2 (windowDimensions : Box) (rootBounds : Rect) : Margins :=
  let viewportBounds := rootBounds.toBox
  { top := min (-(windowDimensions.top - 1 - viewportBounds.top)) 0
    right := min (-(viewportBounds.right - (windowDimensions.right + 1))) 0
    bottom := min (-(viewportBounds.bottom - (windowDimensions.bottom + 1))) 0
    left := min (-(windowDimensions.left - 1 - viewportBounds.left)) 0 }

/-- Models `this.intersectionObserver?.unobserve` of the two-observer variant. -/
def unobserveCurrent2 (s : St2) : St2 :=
  match s.current with
  | none => s
  | some i =>
      { s with subs := s.subs.map fun sub =>
          if sub.id = i then { sub with observing := false } else sub }

/-- Models `this.intersectionObserver?.disconnect()` of the two-observer variant. -/
def disconnectCurrent2 (s : St2) : St2 :=
  match s.current with
  | none => s
  | some i => { s with subs := s.subs.filter fun sub => sub.id ≠ i }

/-- Models `reportPosition(rootBounds)`: dispatch a `movement-observed` event with
`outOfViewport: !this.viewportVisible` (an unset flag is falsy). -/
def reportPosition (s : St2) (rootBounds : Option Rect) : Report2 :=
  { rootBounds := rootBounds, outOfViewport := !(s.viewportVisible.getD false) }

/-- Models `setupIntersectionObserverFromStart(targetElement)`: replace the
`intersectionObserver` field with a fresh viewport-rooted observer. -/
def setupIntersectionObserverFromStart (s : St2) : St2 :=
  { s with
      subs := s.subs ++ [{ id := s.nextIoId, cb := .viewport, observing := true }],
      current := some s.nextIoId,
      nextIoId := s.nextIoId + 1,
      hasTarget := true }

/-- Models `observe(targetElement)` of the two-observer variant: binds the target
and creates a fresh backup viewport observer (the previous backup observer,
if any, is not torn down). -/
def observe2 (s : St2) : St2 :=
  { s with
      hasTarget := true,
      subs := s.subs ++ [{ id := s.nextIoId, cb := .backup, observing := true }],
      backup := some s.nextIoId,
      nextIoId := s.nextIoId + 1 }

/-- Models `viewportWindowDetectionCallback(e)` of the two-observer variant:
inspects `e[0]` only. -/
def viewportWindowDetectionCallback2 (s : St2) :
    List Entry2 → St2 × List Report2
  | [] => (s, [])
  | entry :: _ =>
      let IR := entry.intersectionRatio
      let s₁ := { s with viewportVisible := some (0 < IR) }
      let rep := reportPosition s₁ entry.rootBounds
      let s₂ := { s₁ with viewportIR := some IR }
      if 0 < IR then
        let s₃ := disconnectCurrent2 (unobserveCurrent2 s₂)
        ({ s₃ with
            subs := s₃.subs ++ [{ id := s₃.nextIoId, cb := .finer, observing := true }],
            current := some s₃.nextIoId,
            nextIoId := s₃.nextIoId + 1 }, [rep])
      else
        (s₂, [rep])

/-- Models `finerWindowDetectionCallback(e)` of the two-observer variant: inspects
`e[0]` only; when the fine ratio differs from the remembered viewport ratio
it tears the fine observer down and re-arms the viewport observer. -/
def finerWindowDetectionCallback2 (s : St2) :
    List Entry2 → St2 × List Report2
  | [] => (s, [])
  | entry :: _ =>
      let IR := entry.intersectionRatio
      let rep := reportPosition s entry.rootBounds
      if s.viewportIR ≠ some IR then
        (setupIntersectionObserverFromStart (disconnectCurrent2 s), [rep])
      else
        (s, [rep])

end TwoIo

namespace PositionObserver

attribute [local semireducible] Rat.add Rat.sub Rat.mul Rat.inv

/-- A frame-by-frame run of the host's animation-frame queue while the
target's geometry query keeps returning `rect`: each step fires the pending
callback at the head of the queue, if any. -/
def runPoller (rect : Rect) : ℕ → ObsState → ObsState × List Report
  | 0, s => (s, [])
  | Nat.succ n, s =>
      match s.pendingRafs with
      | [] => (s, [])
      | (i, _) :: _ =>
          let p := fireRafTask s i rect
          let q := runPoller rect n p.1
          (q.1, p.2 ++ q.2)

/-- A sample visual viewport for the concrete runs. -/
def testVV : VisualViewport := ⟨0, 0, 100, 100⟩

/-- A coarse-watcher notification: the target half-entered the viewport. -/
def entryHalfIn : Entry :=
  ⟨mkRat 1 2, ⟨0, 0, 10, 10⟩, some ⟨0, 0, 100, 100⟩, ⟨0, 0, 10, 5⟩⟩

/-- A fine-watcher notification: the target slid half out of the fitted
window. -/
def entryHalfOut : Entry :=
  ⟨mkRat 1 2, ⟨5, 0, 10, 10⟩, some ⟨0, 0, 100, 100⟩, ⟨5, 0, 10, 5⟩⟩

/-- A coarse-watcher notification with zero intersection: the target sits
fully outside the viewport. -/
def entryOutside : Entry :=
  ⟨0, ⟨-50, -50, 10, 10⟩, some ⟨0, 0, 100, 100⟩, ⟨0, 0, 0, 0⟩⟩

/-- A fine-watcher notification with full containment (ratio 1). -/
def entryContained : Entry :=
  ⟨1, ⟨0, 0, 10, 10⟩, some ⟨0, 0, 100, 100⟩, ⟨0, 0, 10, 10⟩⟩

/-- State after `observe` on a fresh instance: one live coarse watcher. -/
def sCoarse : ObsState := observe initState

/-- State after the coarse watcher saw `entryHalfIn`: one live fine
watcher. -/
def sFine : ObsState := (viewportWindowDetectionCallback testVV sCoarse [entryHalfIn]).1

/-- State after the fine watcher received `entryHalfOut`: its body is queued
as animation-frame callback 1. -/
def sFineQueued : ObsState := (finerWindowCallback sFine [entryHalfOut]).1

/-- State after that queued body ran: the fine watcher is torn down, the
motion-polling loop is armed as animation-frame callback 2, and the entry's
bounds are cached as the position sample. -/
def sPolling : ObsState := (fireRafTask sFineQueued 1 ⟨5, 0, 10, 10⟩).1

/-- State `sPolling` after a `disconnect()` call. -/
def sDisconnected : ObsState := disconnect sPolling

lemma findSub_eq_none {l : List IOSub} {i : ℕ} (h : ∀ sub ∈ l, sub.id ≠ i) :
    findSub l i = none := by
  induction l with
  | nil => rfl
  | cons a t ih =>
      simp only [findSub]
      rw [if_neg (h a (List.mem_cons_self a t))]
      exact ih fun sub hs => h sub (List.mem_cons_of_mem a hs)

lemma findSub_append_of_none {l₁ l₂ : List IOSub} {i : ℕ}
    (h : findSub l₁ i = none) : findSub (l₁ ++ l₂) i = findSub l₂ i := by
  induction l₁ with
  | nil => rfl
  | cons a t ih =>
      simp only [findSub] at h ⊢
      by_cases ha : a.id = i
      · rw [if_pos ha] at h; exact absurd h (by simp)
      · rw [if_neg ha] at h ⊢
        exact ih h

lemma findSub_mem {l : List IOSub} {i : ℕ} {sub : IOSub}
    (h : findSub l i = some sub) : sub ∈ l ∧ sub.id = i := by
  induction l with
  | nil => exact absurd h (by simp [findSub])
  | cons a t ih =>
      simp only [findSub] at h
      by_cases ha : a.id = i
      · rw [if_pos ha] at h
        obtain rfl : a = sub := by injection h
        exact ⟨List.mem_cons_self a t, ha⟩
      · rw [if_neg ha] at h
        obtain ⟨hm, hid⟩ := ih h
        exact ⟨List.mem_cons_of_mem a hm, hid⟩

/-- After the `unobserve`/`disconnect` pair on the current observer, every
surviving subscription keeps an id it already had and none carries the
disconnected id. -/
lemma teardown_subs_ids (s : ObsState) (i : ℕ) (hcur : s.current = some i) :
    ∀ sub' ∈ (disconnectCurrent (unobserveCurrent s)).subs,
      sub'.id ≠ i ∧ ∃ sub ∈ s.subs, sub'.id = sub.id := by
  intro sub' h'
  simp only [unobserveCurrent, disconnectCurrent, hcur, List.mem_filter,
    List.mem_map] at h'
  obtain ⟨⟨sub, hmem, heq⟩, hne⟩ := h'
  refine ⟨by simpa using hne, sub, hmem, ?_⟩
  by_cases hid : sub.id = i
  · rw [if_pos hid] at heq; rw [← heq]
  · rw [if_neg hid] at heq; rw [← heq]

/-- The `unobserve`/`disconnect` pair only touches the subscription list. -/
lemma teardown_fields (s : ObsState) (i : ℕ) (hcur : s.current = some i) :
    (disconnectCurrent (unobserveCurrent s)).current = some i ∧
    (disconnectCurrent (unobserveCurrent s)).pendingRafs = s.pendingRafs ∧
    (disconnectCurrent (unobserveCurrent s)).nextIoId = s.nextIoId ∧
    (disconnectCurrent (unobserveCurrent s)).hasTarget = s.hasTarget := by
  simp [unobserveCurrent, disconnectCurrent, hcur]

/-- After `observe`, the referenced observer is the fresh coarse one,
provided the fresh id was unused. -/
lemma currentKind_observe (s : ObsState)
    (h : ∀ sub ∈ s.subs, sub.id ≠ s.nextIoId) :
    currentKind (observe s) = some IOCb.coarse := by
  simp only [currentKind, observe, lookupSub]
  rw [findSub_append_of_none (findSub_eq_none h)]
  simp [findSub]

lemma lookupSub_observe_ne (s : ObsState) (i : ℕ) (hne : s.nextIoId ≠ i)
    (h : findSub s.subs i = none) : lookupSub (observe s) i = none := by
  simp only [lookupSub, observe]
  rw [findSub_append_of_none h]
  simp [findSub, hne]

/-- Characterization of the deferred fine-watcher body on a ratio-0 entry:
after the optional report branch it always tears the fine observer down and
re-runs `observe`, scheduling nothing. -/
lemma finerWindowBody_zero_ratio (s : ObsState) (entry : Entry)
    (hr : entry.intersectionRatio = 0) :
    finerWindowBody s entry =
      (observe (disconnectCurrent (unobserveCurrent
          (if hasPositionChanged s.previousPositionInfo entry.boundingClientRect then
            updatePosition { s with stopped := false } entry.boundingClientRect
          else s))),
        if hasPositionChanged s.previousPositionInfo entry.boundingClientRect then
          [{ x := entry.boundingClientRect.left, y := entry.boundingClientRect.top,
             outOfViewport := false, rootBounds := entry.rootBounds }]
        else []) := by
  have hA : ¬(0 < entry.intersectionRatio ∧ entry.intersectionRatio < 1) := by
    rintro ⟨h, -⟩
    rw [hr] at h
    exact lt_irrefl 0 h
  have hC : ¬(entry.intersectionRatio = 1) := by rw [hr]; norm_num
  by_cases hchg : hasPositionChanged s.previousPositionInfo entry.boundingClientRect
  · simp only [finerWindowBody, hchg, if_true, if_neg hA, if_pos hr, if_neg hC]
  · simp only [finerWindowBody, hchg, Bool.false_eq_true, if_false, if_pos hr,
      if_neg hC]

/-- The observable effect of tearing the current observer down and
re-observing: the fresh coarse observer becomes current, the old id is gone,
and the pending frame callbacks are untouched. -/
lemma observe_teardown_props (s : ObsState) (i : ℕ)
    (hcur : s.current = some i)
    (hi : i < s.nextIoId)
    (hids : ∀ sub ∈ s.subs, sub.id < s.nextIoId) :
    currentKind (observe (disconnectCurrent (unobserveCurrent s))) = some IOCb.coarse ∧
    lookupSub (observe (disconnectCurrent (unobserveCurrent s))) i = none ∧
    (observe (disconnectCurrent (unobserveCurrent s))).pendingRafs = s.pendingRafs := by
  refine ⟨?_, ?_, ?_⟩
  · refine currentKind_observe _ ?_
    intro sub' h'
    obtain ⟨-, sub, hmem, heq⟩ := teardown_subs_ids s i hcur sub' h'
    have := hids sub hmem
    have hnext := (teardown_fields s i hcur).2.2.1
    rw [hnext]
    omega
  · refine lookupSub_observe_ne _ _ ?_ ?_
    · rw [(teardown_fields s i hcur).2.2.1]
      omega
    · exact findSub_eq_none fun sub' h' => (teardown_subs_ids s i hcur sub' h').1
  · rw [observe, (teardown_fields s i hcur).2.1]

/-- When every subscription carries the current id, the
`unobserve`/`disconnect` pair empties the subscription list. -/
lemma teardown_subs_nil (s : ObsState) (i : ℕ)
    (hcur : s.current = some i)
    (hids : ∀ sub ∈ s.subs, sub.id = i) :
    (disconnectCurrent (unobserveCurrent s)).subs = [] := by
  simp only [unobserveCurrent, disconnectCurrent, hcur]
  rw [List.filter_eq_nil_iff]
  intro a ha
  obtain ⟨sub, hmem, heq⟩ := List.mem_map.mp ha
  have hid : a.id = i := by
    by_cases h : sub.id = i
    · rw [if_pos h] at heq; rw [← heq]; exact h
    · rw [if_neg h] at heq; rw [← heq]; exact hids sub hmem
  simp [hid]

/-- Tearing down a single-id observer set and re-observing leaves exactly
one live mechanism: the fresh coarse watcher. -/
lemma mechCount_observe_teardown (s : ObsState) (i : ℕ)
    (hcur : s.current = some i)
    (hids : ∀ sub ∈ s.subs, sub.id = i)
    (hraf : s.pendingRafs.filter (fun t => isPollerTask t.2) = []) :
    mechCount (observe (disconnectCurrent (unobserveCurrent s))) = 1 := by
  have hnil := teardown_subs_nil s i hcur hids
  have hpend := (teardown_fields s i hcur).2.1
  simp [mechCount, liveWatcherCount, pendingPollerCount, observe, hnil, hpend, hraf]

/-- C2 (amended): from any single-mechanism state, the watcher-driven
transitions (coarse to fine on a positive ratio, fine back to coarse on
ratio 0, and fine to the polling loop on a ratio strictly between 0 and 1)
tear the previous mechanism down before creating the next, leaving exactly
one live mechanism. -/
theorem claim_C2_internal_transitions_teardown
    (vv : VisualViewport) (s : ObsState) (i : ℕ) (entry : Entry) (rest : List Entry)
    (hcur : s.current = some i)
    (hids : ∀ sub ∈ s.subs, sub.id = i)
    (hlive : liveWatcherCount s = 1)
    (hraf : s.pendingRafs.filter (fun t => isPollerTask t.2) = []) :
    (0 < entry.intersectionRatio →
      mechCount (viewportWindowDetectionCallback vv s (entry :: rest)).1 = 1) ∧
    (entry.intersectionRatio = 0 → mechCount (finerWindowBody s entry).1 = 1) ∧
    (0 < entry.intersectionRatio → entry.intersectionRatio < 1 →
      mechCount (finerWindowBody s entry).1 = 1) := by
  refine ⟨?_, ?_, ?_⟩
  · intro h0
    have hnil := teardown_subs_nil s i hcur hids
    have hpend := (teardown_fields s i hcur).2.1
    simp only [viewportWindowDetectionCallback, if_pos h0]
    simp [mechCount, liveWatcherCount, pendingPollerCount, hnil, hpend, hraf]
  · intro hr
    rw [finerWindowBody_zero_ratio s entry hr]
    by_cases hchg : hasPositionChanged s.previousPositionInfo entry.boundingClientRect
    · rw [if_pos hchg]
      exact mechCount_observe_teardown
        (updatePosition { s with stopped := false } entry.boundingClientRect) i
        hcur hids hraf
    · rw [if_neg hchg]
      exact mechCount_observe_teardown s i hcur hids hraf
  · intro h0 h1
    have hne0 : ¬(entry.intersectionRatio = 0) := ne_of_gt h0
    have hne1 : ¬(entry.intersectionRatio = 1) := ne_of_lt h1
    by_cases hchg : hasPositionChanged s.previousPositionInfo entry.boundingClientRect
    · simp only [finerWindowBody, hchg, if_true, if_pos (And.intro h0 h1),
        if_neg hne0, if_neg hne1]
      have hnil := teardown_subs_nil
        (updatePosition { s with stopped := false } entry.boundingClientRect) i hcur hids
      have hpend := (teardown_fields
        (updatePosition { s with stopped := false } entry.boundingClientRect) i hcur).2.1
      simp only [updatePosition] at hnil hpend
      simp [mechCount, liveWatcherCount, pendingPollerCount, scheduleRaf, hnil,
        hpend, hraf, isPollerTask, updatePosition]
      intro a b hm
      have hb := List.filter_eq_nil_iff.mp hraf _ hm
      simpa [isPollerTask] using hb
    · simp only [finerWindowBody, hchg, Bool.false_eq_true, if_false,
        if_neg hne0, if_neg hne1]
      simp [mechCount, pendingPollerCount, hraf, hlive]

/-- Concrete instantiation of `claim_C2_internal_transitions_teardown` on
the fine-watching run state, for all three transition kinds. -/
theorem claim_C2_internal_transitions_teardown_witness :
    mechCount (viewportWindowDetectionCallback testVV sFine (entryHalfIn :: [])).1 = 1 ∧
    mechCount (finerWindowBody sFine entryOutside).1 = 1 ∧
    mechCount (finerWindowBody sFine entryHalfOut).1 = 1 := by
  have h := claim_C2_internal_transitions_teardown testVV sFine 1 entryHalfIn []
    (by decide) (by decide) (by decide) (by decide)
  have h' := claim_C2_internal_transitions_teardown testVV sFine 1 entryOutside []
    (by decide) (by decide) (by decide) (by decide)
  have h'' := claim_C2_internal_transitions_teardown testVV sFine 1 entryHalfOut []
    (by decide) (by decide) (by decide) (by decide)
  exact ⟨h.1 (by decide), h'.2.1 (by decide), h''.2.2 (by decide) (by decide)⟩

/-- C3: in the fine-watching state, a notification with intersection ratio
exactly 0 removes the fine subscription and re-arms the coarse full-viewport
watcher, scheduling no polling tick. -/
theorem claim_C3_fine_zero_ratio_returns_to_coarse
    (s : ObsState) (entry : Entry) (i : ℕ)
    (hcur : s.current = some i)
    (hfine : currentKind s = some IOCb.fine)
    (hids : ∀ sub ∈ s.subs, sub.id < s.nextIoId)
    (hr : entry.intersectionRatio = 0) :
    currentKind (finerWindowBody s entry).1 = some IOCb.coarse ∧
    lookupSub (finerWindowBody s entry).1 i = none ∧
    (finerWindowBody s entry).1.pendingRafs = s.pendingRafs := by
  have hi : i < s.nextIoId := by
    simp only [currentKind, hcur, lookupSub] at hfine
    obtain ⟨sub, hsub, -⟩ := Option.map_eq_some'.mp hfine
    obtain ⟨hmem, hid⟩ := findSub_mem hsub
    exact hid ▸ hids sub hmem
  rw [finerWindowBody_zero_ratio s entry hr]
  by_cases hchg : hasPositionChanged s.previousPositionInfo entry.boundingClientRect
  · rw [if_pos hchg]
    exact observe_teardown_props (updatePosition { s with stopped := false }
      entry.boundingClientRect) i hcur hi hids
  · rw [if_neg hchg]
    exact observe_teardown_props s i hcur hi hids

/-- Concrete instantiation of `claim_C3_fine_zero_ratio_returns_to_coarse`
on the fine-watching run state and a full-exit notification. -/
theorem claim_C3_fine_zero_ratio_returns_to_coarse_witness :
    currentKind (finerWindowBody sFine entryOutside).1 = some IOCb.coarse ∧
    lookupSub (finerWindowBody sFine entryOutside).1 1 = none ∧
    (finerWindowBody sFine entryOutside).1.pendingRafs = sFine.pendingRafs :=
  claim_C3_fine_zero_ratio_returns_to_coarse sFine entryOutside 1
    (by decide) (by decide) (by decide) (by decide)

/-- C9: every watcher callback inspects only the first entry of a delivered
batch: replacing the remaining entries by anything (in particular dropping
them) leaves the resulting state and reports unchanged, in the version-2
coarse and fine callbacks and in the two-observer variant's viewport
callback. -/
theorem claim_C9_only_first_entry_inspected :
    (∀ (vv : VisualViewport) (s : ObsState) (e : Entry) (rest : List Entry),
      viewportWindowDetectionCallback vv s (e :: rest) =
        viewportWindowDetectionCallback vv s [e]) ∧
    (∀ (s : ObsState) (e : Entry) (rest : List Entry),
      finerWindowCallback s (e :: rest) = finerWindowCallback s [e]) ∧
    (∀ (s : TwoIo.St2) (e : TwoIo.Entry2) (rest : List TwoIo.Entry2),
      TwoIo.viewportWindowDetectionCallback2 s (e :: rest) =
        TwoIo.viewportWindowDetectionCallback2 s [e]) :=
  ⟨fun _ _ _ _ => rfl, fun _ _ _ => rfl, fun _ _ _ => rfl⟩

/-- C6: in the coarse state, a notification whose intersection ratio is zero
produces exactly one report, carrying the entry's bounds as `x`/`y` and
`outOfViewport: true`, and leaves the state untouched: no transition and no
new subscription. -/
theorem claim_C6_coarse_zero_ratio_reports_out_of_viewport
    (vv : VisualViewport) (s : ObsState) (entry : Entry) (rest : List Entry)
    (hcoarse : currentKind s = some IOCb.coarse)
    (hr : entry.intersectionRatio = 0) :
    viewportWindowDetectionCallback vv s (entry :: rest) =
      (s, [{ x := entry.boundingClientRect.left, y := entry.boundingClientRect.top,
             outOfViewport := true, rootBounds := entry.rootBounds }]) := by
  simp only [viewportWindowDetectionCallback, hr, lt_irrefl, if_false]

/-- Concrete instantiation of
`claim_C6_coarse_zero_ratio_reports_out_of_viewport` on the freshly observed
state and an off-screen notification. -/
theorem claim_C6_coarse_zero_ratio_reports_out_of_viewport_witness :
    viewportWindowDetectionCallback testVV sCoarse [entryOutside] =
      (sCoarse, [{ x := -50, y := -50, outOfViewport := true,
                   rootBounds := some ⟨0, 0, 100, 100⟩ }]) :=
  claim_C6_coarse_zero_ratio_reports_out_of_viewport testVV sCoarse entryOutside []
    (by decide) (by decide)

lemma hasPositionChanged_toPosInfo (r : Rect) :
    hasPositionChanged (some r.toPosInfo) r = false := by
  simp [hasPositionChanged, Rect.toPosInfo]

/-- An unchanged poll tick with a nonzero countdown: the counter drops by
exactly one, a fresh tick is scheduled, no report is made, and nothing else
changes. -/
lemma poller_tick_decrement (s : ObsState) (rect : Rect) (i c : ℕ)
    (ht : s.hasTarget = true)
    (hprev : s.previousPositionInfo = some rect.toPosInfo)
    (hc : s.timeToWaitTillStopConfirmed = c + 1)
    (hq : s.pendingRafs = [(i, RafCb.repeated)])
    (hraf : s.positionRAF = some i) :
    fireRafTask s i rect =
      ({ s with timeToWaitTillStopConfirmed := c,
                pendingRafs := [(s.nextRafId, RafCb.repeated)],
                positionRAF := some s.nextRafId,
                nextRafId := s.nextRafId + 1 }, []) := by
  obtain ⟨subs, cur, pend, nio, nra, praf, prev, htg, ttw, wt, swt, stp⟩ := s
  simp only at ht hprev hc hq hraf
  subst ht hprev hc hq hraf
  simp [fireRafTask, cancelRaf, repeatedCheck, hasPositionChanged_toPosInfo,
    scheduleRaf, List.find?]

/-- An unchanged poll tick with an elapsed countdown: the loop cancels
itself and hands control back to `observe`, reporting nothing. -/
lemma poller_tick_terminal (s : ObsState) (rect : Rect) (i : ℕ)
    (ht : s.hasTarget = true)
    (hprev : s.previousPositionInfo = some rect.toPosInfo)
    (hc : s.timeToWaitTillStopConfirmed = 0)
    (hq : s.pendingRafs = [(i, RafCb.repeated)])
    (hraf : s.positionRAF = some i) :
    fireRafTask s i rect = (observe { s with pendingRafs := [] }, []) := by
  obtain ⟨subs, cur, pend, nio, nra, praf, prev, htg, ttw, wt, swt, stp⟩ := s
  simp only at ht hprev hc hq hraf
  subst ht hprev hc hq hraf
  simp [fireRafTask, cancelRaf, repeatedCheck, hasPositionChanged_toPosInfo,
    cancelStoredRaf, observe, List.find?]

/-- With an empty frame queue nothing fires and nothing is reported. -/
lemma runPoller_no_pending (rect : Rect) (n : ℕ) (s : ObsState)
    (h : s.pendingRafs = []) : runPoller rect n s = (s, []) := by
  cases n with
  | zero => rfl
  | succ n => simp [runPoller, h]

/-- One unfolding step of `runPoller` when the queue head is known. -/
lemma runPoller_succ_cons (rect : Rect) (n : ℕ) (s : ObsState) (i : ℕ)
    (cb : RafCb) (rest : List (ℕ × RafCb))
    (h : s.pendingRafs = (i, cb) :: rest) :
    runPoller rect (n + 1) s =
      ((runPoller rect n (fireRafTask s i rect).1).1,
        (fireRafTask s i rect).2 ++ (runPoller rect n (fireRafTask s i rect).1).2) := by
  simp only [runPoller, h]

/-- Running the armed poller while the target's bounds stay equal to the
cached sample: after the countdown plus the final tick the queue is empty,
a fresh coarse watcher has been created and made current, no report was
ever made, and the cached sample is still in place. -/
lemma runPoller_stillness (c : ℕ) :
    ∀ (s : ObsState) (rect : Rect) (i : ℕ),
      s.hasTarget = true →
      s.previousPositionInfo = some rect.toPosInfo →
      s.timeToWaitTillStopConfirmed = c →
      s.pendingRafs = [(i, RafCb.repeated)] →
      s.positionRAF = some i →
      (runPoller rect (c + 1) s).2 = [] ∧
      (runPoller rect (c + 1) s).1.pendingRafs = [] ∧
      (runPoller rect (c + 1) s).1.subs =
        s.subs ++ [{ id := s.nextIoId, cb := IOCb.coarse, observing := true,
                     rootMargins := ⟨0, 0, 0, 0⟩ }] ∧
      (runPoller rect (c + 1) s).1.current = some s.nextIoId ∧
      (runPoller rect (c + 1) s).1.nextIoId = s.nextIoId + 1 ∧
      (runPoller rect (c + 1) s).1.previousPositionInfo = some rect.toPosInfo := by
  induction c with
  | zero =>
      intro s rect i ht hprev hc hq hraf
      have hfire := poller_tick_terminal s rect i ht hprev hc hq hraf
      rw [runPoller_succ_cons rect 0 s i RafCb.repeated [] hq, hfire]
      simp [runPoller, observe, hprev]
  | succ c ih =>
      intro s rect i ht hprev hc hq hraf
      have hfire := poller_tick_decrement s rect i c ht hprev hc hq hraf
      have ih' := ih
        { s with timeToWaitTillStopConfirmed := c,
                 pendingRafs := [(s.nextRafId, RafCb.repeated)],
                 positionRAF := some s.nextRafId,
                 nextRafId := s.nextRafId + 1 }
        rect s.nextRafId ht hprev rfl rfl rfl
      rw [runPoller_succ_cons rect (c + 1) s i RafCb.repeated [] hq, hfire]
      simpa using ih'

/-- Running `k ≤ c` unchanged ticks from a countdown of `c`: no report is
made and the counter has dropped by exactly `k`. -/
lemma runPoller_partial (k : ℕ) :
    ∀ (c : ℕ) (s : ObsState) (rect : Rect) (i : ℕ),
      s.hasTarget = true →
      s.previousPositionInfo = some rect.toPosInfo →
      s.timeToWaitTillStopConfirmed = c →
      s.pendingRafs = [(i, RafCb.repeated)] →
      s.positionRAF = some i →
      k ≤ c →
      (runPoller rect k s).2 = [] ∧
      (runPoller rect k s).1.timeToWaitTillStopConfirmed = c - k := by
  induction k with
  | zero =>
      intro c s rect i ht hprev hc hq hraf hk
      simpa [runPoller] using hc
  | succ k ih =>
      intro c s rect i ht hprev hc hq hraf hk
      obtain ⟨c', rfl⟩ : ∃ c', c = c' + 1 := ⟨c - 1, by omega⟩
      have hfire := poller_tick_decrement s rect i c' ht hprev hc hq hraf
      have ih' := ih c'
        { s with timeToWaitTillStopConfirmed := c',
                 pendingRafs := [(s.nextRafId, RafCb.repeated)],
                 positionRAF := some s.nextRafId,
                 nextRafId := s.nextRafId + 1 }
        rect s.nextRafId ht hprev rfl rfl rfl (by omega)
      rw [runPoller_succ_cons rect k s i RafCb.repeated [] hq, hfire]
      have harith : c' + 1 - (k + 1) = c' - k := by omega
      rw [harith]
      simpa using ih'

/-- C7 (amended): with stillness wait `W` and the 16 ms frame assumption,
once the bounds match the cached sample the armed poll loop makes no report,
decrements its counter by exactly one per tick, terminates within
`ceil(W/16)` ticks after the first unchanged one by emptying the frame queue
and re-arming the coarse watcher (the cached sample is retained, not
cleared), and no further frame run produces any report. -/
theorem claim_C7_stillness_convergence
    (W : ℚ) (rect : Rect) (s : ObsState) (i : ℕ)
    (hW : s.waitTime = W)
    (hc : s.timeToWaitTillStopConfirmed = msToFrames W)
    (ht : s.hasTarget = true)
    (hprev : s.previousPositionInfo = some rect.toPosInfo)
    (hq : s.pendingRafs = [(i, RafCb.repeated)])
    (hraf : s.positionRAF = some i)
    (hids : ∀ sub ∈ s.subs, sub.id < s.nextIoId) :
    (∀ k, k ≤ msToFrames W →
      (runPoller rect k s).2 = [] ∧
      (runPoller rect k s).1.timeToWaitTillStopConfirmed = msToFrames W - k) ∧
    (runPoller rect (msToFrames W + 1) s).2 = [] ∧
    (runPoller rect (msToFrames W + 1) s).1.pendingRafs = [] ∧
    currentKind (runPoller rect (msToFrames W + 1) s).1 = some IOCb.coarse ∧
    (runPoller rect (msToFrames W + 1) s).1.previousPositionInfo =
      some rect.toPosInfo ∧
    (∀ m, (runPoller rect m (runPoller rect (msToFrames W + 1) s).1).2 = []) := by
  obtain ⟨hrep, hpend, hsubs, hcur', hnio, hprev'⟩ :=
    runPoller_stillness (msToFrames W) s rect i ht hprev hc hq hraf
  refine ⟨?_, hrep, hpend, ?_, hprev', ?_⟩
  · intro k hk
    exact runPoller_partial k (msToFrames W) s rect i ht hprev hc hq hraf hk
  · simp only [currentKind, lookupSub, hcur', hsubs]
    rw [findSub_append_of_none (findSub_eq_none fun sub hm =>
      Nat.ne_of_lt (hids sub hm))]
    simp [findSub]
  · intro m
    rw [runPoller_no_pending rect m _ hpend]

/-- Concrete instantiation of `claim_C7_stillness_convergence` on the
polling run state, with `W = 0`. -/
theorem claim_C7_stillness_convergence_witness :
    (runPoller ⟨5, 0, 10, 10⟩ (msToFrames 0 + 1) sPolling).2 = [] ∧
    (runPoller ⟨5, 0, 10, 10⟩ (msToFrames 0 + 1) sPolling).1.pendingRafs = [] ∧
    currentKind (runPoller ⟨5, 0, 10, 10⟩ (msToFrames 0 + 1) sPolling).1 =
      some IOCb.coarse := by
  have h := claim_C7_stillness_convergence 0 ⟨5, 0, 10, 10⟩ sPolling 2
    (by decide) (by decide) (by decide) (by decide) (by decide) (by decide)
    (by decide)
  exact ⟨h.2.1, h.2.2.1, h.2.2.2.1⟩

/-- C1 (code evaluated at the failing input): after `disconnect()` is called
while the motion poller is armed, the watcher subscription is gone yet the
pending poll tick survives and the cached geometry sample is retained, so
when the already-scheduled frame tick later fires it still invokes the
reporting callback; a second `disconnect()` is a no-op. -/
theorem claim_C1_disconnect_leaves_poller_live :
    liveWatcherCount sDisconnected = 0 ∧
    sDisconnected.pendingRafs = [(2, RafCb.repeated)] ∧
    sDisconnected.previousPositionInfo = some ⟨0, 5, 10, 10⟩ ∧
    (fireRafTask sDisconnected 2 ⟨7, 0, 10, 10⟩).2 =
      [{ x := 7, y := 0, outOfViewport := false, rootBounds := some ⟨7, 0, 10, 10⟩ }] ∧
    disconnect sDisconnected = sDisconnected := by
  decide

/-- C2 counterexample: a second direct `observe` call leaves two watcher
subscriptions live at once, and the fine watcher's full-containment branch
arms the stop-confirmation poller while the fine subscription stays live, so
two detection mechanisms are concurrently live. -/
theorem claim_C2_counterexample_double_mechanisms :
    liveWatcherCount (observe (observe initState)) = 2 ∧
    mechCount (finerWindowBody sFine entryContained).1 = 2 := by
  decide

/-- C10 counterexample: entering the polling phase has already recorded the
notification's bounds as the position sample, so the first poll tick with
identical bounds emits no report (and records nothing new). -/
theorem claim_C10_counterexample_first_tick_silent :
    sPolling.previousPositionInfo = some ⟨0, 5, 10, 10⟩ ∧
    (fireRafTask sPolling 2 ⟨5, 0, 10, 10⟩).2 = [] := by
  decide

lemma unobserveCurrent_prev (s : ObsState) :
    (unobserveCurrent s).previousPositionInfo = s.previousPositionInfo := by
  cases h : s.current <;> simp [unobserveCurrent, h]

lemma disconnectCurrent_prev (s : ObsState) :
    (disconnectCurrent s).previousPositionInfo = s.previousPositionInfo := by
  cases h : s.current <;> simp [disconnectCurrent, h]

/-- C8 (amended): every report carries as `x`/`y` the left/top of the bounds
in effect at report time; `outOfViewport` is true exactly for the coarse
watcher's zero-intersection reports; watcher-driven reports carry the
notification's root bounds as `rootBounds`, while both polling loops instead
pass the target's own freshly queried rectangle in that field. -/
theorem claim_C8_report_payloads
    (vv : VisualViewport) (s : ObsState) (entry : Entry) (rest : List Entry)
    (rect : Rect) :
    ((viewportWindowDetectionCallback vv s (entry :: rest)).2 =
      if 0 < entry.intersectionRatio then []
      else [{ x := entry.boundingClientRect.left, y := entry.boundingClientRect.top,
              outOfViewport := true, rootBounds := entry.rootBounds }]) ∧
    ((finerWindowBody s entry).2 =
      if hasPositionChanged s.previousPositionInfo entry.boundingClientRect then
        [{ x := entry.boundingClientRect.left, y := entry.boundingClientRect.top,
           outOfViewport := false, rootBounds := entry.rootBounds }]
      else []) ∧
    ((repeatedCheck s rect).2 =
      if s.hasTarget && hasPositionChanged s.previousPositionInfo rect then
        [{ x := rect.left, y := rect.top, outOfViewport := false,
           rootBounds := some rect }]
      else []) ∧
    ((stopConfirmationCheck s rect).2 =
      if s.hasTarget && hasPositionChanged s.previousPositionInfo rect then
        [{ x := rect.left, y := rect.top, outOfViewport := false,
           rootBounds := some rect }]
      else []) := by
  refine ⟨?_, ?_, ?_, ?_⟩
  · by_cases h : 0 < entry.intersectionRatio <;>
      simp [viewportWindowDetectionCallback, h]
  · by_cases hchg : hasPositionChanged s.previousPositionInfo entry.boundingClientRect
    · by_cases hio : 0 < entry.intersectionRatio ∧ entry.intersectionRatio < 1 <;>
        simp [finerWindowBody, hchg, hio]
    · simp [finerWindowBody, hchg]
  · by_cases ht : s.hasTarget <;>
      by_cases hchg : hasPositionChanged s.previousPositionInfo rect <;>
      by_cases htt : s.timeToWaitTillStopConfirmed = 0 <;>
      simp [repeatedCheck, ht, hchg, htt]
  · by_cases ht : s.hasTarget <;>
      by_cases hchg : hasPositionChanged s.previousPositionInfo rect <;>
      by_cases htt : s.timeToWaitTillStopConfirmed = 0 <;>
      simp [stopConfirmationCheck, ht, hchg, htt]

/-- C10 (amended): `hasPositionChanged` is true whenever no sample is
recorded; the transition into the polling phase, however, always records the
notification's bounds as the sample first, so a first poll tick that sees
those same bounds again emits no report. -/
theorem claim_C10_first_sample_behaviour
    (rect : Rect) (s t : ObsState) (entry : Entry)
    (hchg : hasPositionChanged s.previousPositionInfo entry.boundingClientRect = true)
    (h0 : 0 < entry.intersectionRatio) (h1 : entry.intersectionRatio < 1)
    (hprev : t.previousPositionInfo = some rect.toPosInfo) :
    (∀ r : Rect, hasPositionChanged none r = true) ∧
    (finerWindowBody s entry).1.previousPositionInfo =
      some entry.boundingClientRect.toPosInfo ∧
    (repeatedCheck t rect).2 = [] := by
  refine ⟨fun r => rfl, ?_, ?_⟩
  · have hne0 : ¬(entry.intersectionRatio = 0) := ne_of_gt h0
    have hne1 : ¬(entry.intersectionRatio = 1) := ne_of_lt h1
    simp [finerWindowBody, hchg, if_pos (And.intro h0 h1), hne0, hne1,
      scheduleRaf, updatePosition, unobserveCurrent_prev, disconnectCurrent_prev]
  · by_cases ht : t.hasTarget <;>
      by_cases htt : t.timeToWaitTillStopConfirmed = 0 <;>
      simp [repeatedCheck, ht, htt, hprev, hasPositionChanged_toPosInfo]

/-- Concrete instantiation of `claim_C10_first_sample_behaviour` on the run
that enters the polling phase via `entryHalfOut`. -/
theorem claim_C10_first_sample_behaviour_witness :
    (∀ r : Rect, hasPositionChanged none r = true) ∧
    (finerWindowBody sFine entryHalfOut).1.previousPositionInfo =
      some ⟨0, 5, 10, 10⟩ ∧
    (repeatedCheck sPolling ⟨5, 0, 10, 10⟩).2 = [] :=
  claim_C10_first_sample_behaviour ⟨5, 0, 10, 10⟩ sFine sPolling entryHalfOut
    (by decide) (by decide) (by decide) (by decide)

/-- C8 counterexample: a motion-poller tick reports the target's own freshly
queried bounds in the `rootBounds` field (the outer boundary of the run is
`⟨0, 0, 100, 100⟩`, not the target's rectangle). -/
theorem claim_C8_counterexample_poller_rootBounds_is_target :
    (fireRafTask sPolling 2 ⟨7, 0, 10, 10⟩).2 =
      [{ x := 7, y := 0, outOfViewport := false, rootBounds := some ⟨7, 0, 10, 10⟩ }] := by
  decide

/-- C7 counterexample: when the stillness countdown elapses the poller does
cancel itself and re-arm the coarse watcher, but the cached position sample
is left in place rather than cleared. -/
theorem claim_C7_counterexample_sample_not_cleared :
    (fireRafTask sPolling 2 ⟨5, 0, 10, 10⟩).1.pendingRafs = [] ∧
    currentKind (fireRafTask sPolling 2 ⟨5, 0, 10, 10⟩).1 = some IOCb.coarse ∧
    (fireRafTask sPolling 2 ⟨5, 0, 10, 10⟩).1.previousPositionInfo =
      some ⟨0, 5, 10, 10⟩ := by
  decide

end PositionObserver
